import Mathlib

/-!
Verification of the request-handler layer of the Framer backend
(`src/api/index.js`): a shallow embedding of the data model (two document
collections, `users` and `projects`), the Firestore field operations the
handlers use (`set`, `update`, `FieldValue.increment`, `FieldValue.arrayUnion`,
an equality-filtered query ordered by a field), and the nine HTTP endpoint
handlers, followed by theorems settling the specification claims.

External collaborators (the Identity Service and the Document Store) are
modelled by their contracts: identity-service calls are passed in as
`Except`-valued parameters, the store is an explicit state threaded through
each handler, and the clock value backing `Date.now()` and
`new Date().toISOString()` is an explicit `now : Nat` parameter.
-/

namespace FramerBackend

/-- Primitive field values as they occur inside stored arrays and objects. -/
inductive Prim where
  | str : String → Prim
  | num : Nat → Prim
  | bool : Bool → Prim
  deriving Repr, DecidableEq

/-- Field values of a stored document. `undef` models a JavaScript
`undefined` property value, as produced by reading an absent request field. -/
inductive Value where
  | str : String → Value
  | num : Nat → Value
  | bool : Bool → Value
  | undef : Value
  | arr : List Prim → Value
  | obj : List (String × Prim) → Value
  deriving Repr, DecidableEq

/-- A document: an ordered field map, as a JavaScript object. -/
abbrev Doc := List (String × Value)

/-- Reads field `k` of a document (first matching entry). -/
def getField (d : Doc) (k : String) : Option Value :=
  match d with
  | [] => none
  | (k', v) :: rest => if k' = k then some v else getField rest k

/-- Writes field `k` of a document: replaces the first matching entry in
place, or appends the field if absent — JavaScript property assignment. -/
def setField (d : Doc) (k : String) (v : Value) : Doc :=
  match d with
  | [] => [(k, v)]
  | (k', v') :: rest => if k' = k then (k, v) :: rest else (k', v') :: setField rest k v

/-- Deletes field `k` of a document — the JavaScript `delete` operator. -/
def removeField (d : Doc) (k : String) : Doc :=
  match d with
  | [] => []
  | (k', v) :: rest => if k' = k then removeField rest k else (k', v) :: removeField rest k

/-- Field names of a document. -/
def keys (d : Doc) : List String := d.map Prod.fst

/-- JavaScript property read on a document: an absent property reads as
`undefined`. -/
def jsGet (d : Doc) (k : String) : Value := (getField d k).getD Value.undef

/-- Truthiness test for an optional string request field, as JavaScript `!x`:
an absent field and the empty string are falsy. -/
def jsFalsy : Option String → Bool
  | none => true
  | some s => s.isEmpty

/-- JavaScript `x || dflt` for an optional string field `x`. -/
def jsOr (v : Option String) (dflt : String) : String :=
  match v with
  | some s => if s.isEmpty then dflt else s
  | none => dflt

/-- Embedding of a possibly-absent string request field into a stored value:
an absent field is stored as `undefined`. -/
def jsVal : Option String → Value
  | none => Value.undef
  | some s => .str s

/-- Model of `new Date(now).toISOString()`: a fixed-width (hence
lexicographically monotone) textual rendering of the clock value `now`,
standing in for the ISO-8601 timestamp string. -/
def isoString (now : Nat) : String :=
  String.mk (List.replicate (20 - (toString now).length) '0' ++ (toString now).data)

/-- Firestore `FieldValue.increment(1)` applied to field `k`: a numeric field
is incremented, any other or missing field is set to the operand. -/
def incrementField (d : Doc) (k : String) : Doc :=
  setField d k
    (match getField d k with
     | some (.num n) => .num (n + 1)
     | _ => .num 1)

/-- Firestore `FieldValue.arrayUnion(x)` applied to field `k`: appends `x` to
an array field when not already present; any other or missing field becomes
the one-element array `[x]`. -/
def arrayUnionField (d : Doc) (k : String) (x : Prim) : Doc :=
  setField d k
    (match getField d k with
     | some (.arr l) => if x ∈ l then .arr l else .arr (l ++ [x])
     | _ => .arr [x])

/-- A store collection: documents indexed by id. -/
abbrev Collection := List (String × Doc)

/-- Reads the document with the given id. -/
def lookupDoc (c : Collection) (id : String) : Option Doc :=
  match c with
  | [] => none
  | (i, d) :: rest => if i = id then some d else lookupDoc rest id

/-- Firestore `doc(id).set(d)`: overwrites the document with the given id, or
creates it. -/
def setDoc (c : Collection) (id : String) (d : Doc) : Collection :=
  match c with
  | [] => [(id, d)]
  | (i, e) :: rest => if i = id then (id, d) :: rest else (i, e) :: setDoc rest id d

/-- Applies a field transformation to the document with the given id (used
for `doc(id).update(...)` once the document is known to exist). -/
def modifyDoc (c : Collection) (id : String) (f : Doc → Doc) : Collection :=
  match c with
  | [] => []
  | (i, d) :: rest =>
      if i = id then (i, f d) :: modifyDoc rest id f
      else (i, d) :: modifyDoc rest id f

/-- The persistent state: the `users` and `projects` collections of the
Document Store. -/
structure ServerState where
  users : Collection
  projects : Collection
  deriving Repr, DecidableEq

/-- Public user subset returned by the register and login endpoints. -/
structure PublicUser where
  uid : String
  email : String
  name : String
  createdAt : String
  deriving Repr, DecidableEq

/-- Response shape of the register and login endpoints. -/
structure AuthRes where
  status : Nat
  success : Bool
  user : Option PublicUser := none
  token : Option String := none
  message : Option String := none
  error : Option String := none
  deriving Repr, DecidableEq

/-- Handler of `POST /api/register`. `fbInit` is the store-availability flag,
`authCreate` the outcome of the Identity Service `createUser` call,
`tokenFor` the outcome of `createCustomToken`, `now` the clock value. -/
def register (fbInit : Bool) (authCreate : Except String String)
    (tokenFor : String → Except String String) (now : Nat)
    (email password name : Option String) (s : ServerState) :
    AuthRes × ServerState :=
  if jsFalsy email || jsFalsy password || jsFalsy name then
    ({ status := 400, success := false,
       error := some "Missing required fields: email, password, name" }, s)
  else if !fbInit then
    ({ status := 200, success := true,
       user := some { uid := "user_" ++ toString now, email := email.getD "",
                      name := name.getD "", createdAt := isoString now },
       token := some ("mock_token_" ++ toString now),
       message := some "Registration successful (Firebase disabled - mock mode)!" }, s)
  else
    match authCreate with
    | .error e =>
        ({ status := 400, success := false,
           error := some (if e.isEmpty then "Registration failed" else e) }, s)
    | .ok uid =>
        let userData : Doc :=
          [("uid", .str uid), ("email", .str (email.getD "")),
           ("name", .str (name.getD "")), ("createdAt", .str (isoString now)),
           ("lastLogin", .str (isoString now)), ("role", .str "user"),
           ("totalProjects", .num 0),
           ("settings", .obj [("theme", .str "light"), ("notifications", .bool true)]),
           ("projects", .arr [])]
        let s1 : ServerState := { s with users := setDoc s.users uid userData }
        match tokenFor uid with
        | .error e =>
            ({ status := 400, success := false,
               error := some (if e.isEmpty then "Registration failed" else e) }, s1)
        | .ok tok =>
            ({ status := 200, success := true,
               user := some { uid := uid, email := email.getD "",
                              name := name.getD "", createdAt := isoString now },
               token := some tok,
               message := some "Registration successful!" }, s1)

/-- Handler of `POST /api/login`. The source never consults the stored
credentials: both branches synthesize `user_<Date.now()>` and, when the store
is available, issue a custom token for that synthetic id. -/
def login (fbInit : Bool) (tokenFor : String → Except String String) (now : Nat)
    (email password : Option String) (s : ServerState) : AuthRes × ServerState :=
  if jsFalsy email || jsFalsy password then
    ({ status := 400, success := false, error := some "Missing email or password" }, s)
  else if !fbInit then
    ({ status := 200, success := true,
       user := some { uid := "user_" ++ toString now, email := email.getD "",
                      name := ((email.getD "").splitOn "@").headD "",
                      createdAt := isoString now },
       token := some ("mock_token_" ++ toString now),
       message := some "Login successful (Firebase disabled - mock mode)!" }, s)
  else
    match tokenFor ("user_" ++ toString now) with
    | .error _ =>
        ({ status := 401, success := false, error := some "Invalid credentials" }, s)
    | .ok tok =>
        ({ status := 200, success := true,
           user := some { uid := "user_" ++ toString now, email := email.getD "",
                          name := ((email.getD "").splitOn "@").headD "",
                          createdAt := isoString now },
           token := some tok, message := some "Login successful!" }, s)

/-- Response shape of `GET /api/user/:userId`. -/
structure GetUserRes where
  status : Nat
  success : Bool
  user : Option Doc := none
  error : Option String := none
  deriving Repr, DecidableEq

/-- The `safeUserData` object built by the get-user handler: exactly the
eight public fields, each read off the stored record. -/
def safeUser (d : Doc) : Doc :=
  [("uid", jsGet d "uid"), ("email", jsGet d "email"), ("name", jsGet d "name"),
   ("createdAt", jsGet d "createdAt"), ("lastLogin", jsGet d "lastLogin"),
   ("role", jsGet d "role"), ("totalProjects", jsGet d "totalProjects"),
   ("settings", jsGet d "settings")]

/-- Handler of `GET /api/user/:userId`. -/
def getUser (userId : String) (s : ServerState) : GetUserRes :=
  match lookupDoc s.users userId with
  | none => { status := 404, success := false, error := some "User not found" }
  | some d => { status := 200, success := true, user := some (safeUser d) }

/-- Response shape of `POST /api/projects`. -/
structure ProjectRes where
  status : Nat
  success : Bool
  project : Option Doc := none
  message : Option String := none
  error : Option String := none
  deriving Repr, DecidableEq

/-- The `projectData` record built by the create-project handler. -/
def projectDoc (userId : String) (name type description : Option String)
    (now : Nat) : Doc :=
  [("id", .str ("project_" ++ toString now)), ("userId", .str userId),
   ("name", jsVal name), ("type", jsVal type),
   ("description", .str (jsOr description "")),
   ("createdAt", .str (isoString now)), ("updatedAt", .str (isoString now)),
   ("status", .str "active"), ("collaborators", .arr []), ("tasks", .arr [])]

/-- Handler of `POST /api/projects`: verifies the user exists, writes the
project record under id `project_<Date.now()>`, then updates the user record
with `increment(1)` on `totalProjects` and `arrayUnion(projectId)` on
`projects` as a second write. -/
def createProject (userId : String) (name type description : Option String)
    (now : Nat) (s : ServerState) : ProjectRes × ServerState :=
  match lookupDoc s.users userId with
  | none => ({ status := 404, success := false, error := some "User not found" }, s)
  | some _ =>
      let projectId := "project_" ++ toString now
      let pdata := projectDoc userId name type description now
      let s1 : ServerState := { s with projects := setDoc s.projects projectId pdata }
      let s2 : ServerState :=
        { s1 with users := modifyDoc s1.users userId fun d =>
            arrayUnionField (incrementField d "totalProjects") "projects" (.str projectId) }
      ({ status := 200, success := true, project := some pdata,
         message := some "Project created successfully!" }, s2)

/-- Lexicographic order on character lists, by code point. -/
def lexLe (a b : List Char) : Bool :=
  match a, b with
  | [], _ => true
  | _ :: _, [] => false
  | x :: xs, y :: ys =>
      if x.toNat < y.toNat then true
      else if y.toNat < x.toNat then false
      else lexLe xs ys

/-- Lexicographic string comparison used by the ordered store query. -/
def strLe (a b : String) : Bool := lexLe a.data b.data

/-- The `createdAt` sort key of a stored project document. -/
def createdAtStr (d : Doc) : String :=
  match getField d "createdAt" with
  | some (.str s) => s
  | _ => ""

/-- Descending `createdAt` order on project documents: `a` sorts no later
than `b` when the key of `b` is at most the key of `a`. -/
def projAfter (a b : Doc) : Prop := strLe (createdAtStr b) (createdAtStr a) = true

instance instDecProjAfter : DecidableRel projAfter := fun a b =>
  inferInstanceAs (Decidable (strLe (createdAtStr b) (createdAtStr a) = true))

/-- Equality filter of the store query `where(k, ==, x)` for a string `x`. -/
def fieldEqStr (d : Doc) (k x : String) : Bool :=
  match getField d k with
  | some (.str s) => s = x
  | _ => false

/-- Response shape of `GET /api/user/:userId/projects`. -/
structure ListProjectsRes where
  status : Nat
  success : Bool
  projects : List Doc := []
  count : Nat := 0
  error : Option String := none
  deriving Repr, DecidableEq

/-- Handler of `GET /api/user/:userId/projects`: the store query filtered on
`userId` equality and ordered by `createdAt` descending; no user lookup. -/
def getUserProjects (userId : String) (s : ServerState) : ListProjectsRes :=
  let matching := (s.projects.filter fun p => fieldEqStr p.2 "userId" userId).map Prod.snd
  let ordered := List.insertionSort projAfter matching
  { status := 200, success := true, projects := ordered, count := ordered.length }

/-- Response shape of `PUT /api/user/:userId`. -/
structure UpdateUserRes where
  status : Nat
  success : Bool
  user : Option Doc := none
  message : Option String := none
  error : Option String := none
  deriving Repr, DecidableEq

/-- Firestore `doc.update(u)` field merge: each field of `u` is written into
the stored document, all other stored fields are untouched. -/
def applyUpdates (d : Doc) (u : Doc) : Doc :=
  u.foldl (fun acc p => setField acc p.1 p.2) d

/-- Handler of `PUT /api/user/:userId`: deletes the protected fields `uid`,
`email`, `createdAt` from the request body, stamps `updatedAt`, merges the
rest into the stored record (the store update fails on a missing document,
surfaced as a 500), then re-reads and returns the record. -/
def updateUser (userId : String) (updates : Doc) (now : Nat) (s : ServerState) :
    UpdateUserRes × ServerState :=
  let u1 := removeField (removeField (removeField updates "uid") "email") "createdAt"
  let u2 := setField u1 "updatedAt" (.str (isoString now))
  match lookupDoc s.users userId with
  | none => ({ status := 500, success := false, error := some "Failed to update profile" }, s)
  | some d =>
      let d' := applyUpdates d u2
      let s' : ServerState := { s with users := setDoc s.users userId d' }
      ({ status := 200, success := true, user := some d',
         message := some "Profile updated successfully" }, s')

/-- Counter invariant of a stored user record: `totalProjects` is a number,
`projects` is an array, and the number equals the array length. -/
def userCountInv (d : Doc) : Bool :=
  match getField d "totalProjects", getField d "projects" with
  | some (.num n), some (.arr l) => n = l.length
  | _, _ => false

/-- The empty store. -/
def demoState0 : ServerState := { users := [], projects := [] }

/-- Store after a successful registration of user `u1` at clock value 0. -/
def demoState : ServerState :=
  (register true (.ok "u1") (fun u => .ok ("tok_" ++ u)) 0
    (some "a@b.c") (some "pw") (some "Al") demoState0).2

/-- The stored record of user `u1` in `demoState`. -/
def demoUserDoc : Doc :=
  [("uid", .str "u1"), ("email", .str "a@b.c"), ("name", .str "Al"),
   ("createdAt", .str (isoString 0)), ("lastLogin", .str (isoString 0)),
   ("role", .str "user"), ("totalProjects", .num 0),
   ("settings", .obj [("theme", .str "light"), ("notifications", .bool true)]),
   ("projects", .arr [])]

/-- Store after additionally creating one project for `u1` at clock value 5. -/
def demoState1 : ServerState :=
  (createProject "u1" (some "P1") (some "web") none 5 demoState).2

/-- The stored record of user `u1` in `demoState1`. -/
def demoUserDoc1 : Doc :=
  [("uid", .str "u1"), ("email", .str "a@b.c"), ("name", .str "Al"),
   ("createdAt", .str (isoString 0)), ("lastLogin", .str (isoString 0)),
   ("role", .str "user"), ("totalProjects", .num 1),
   ("settings", .obj [("theme", .str "light"), ("notifications", .bool true)]),
   ("projects", .arr [.str "project_5"])]

/-- Store after a second project creation for `u1` that also happens at clock
value 5, so that `Date.now()` yields the same project id again. -/
def demoState2 : ServerState :=
  (createProject "u1" (some "P2") (some "web") none 5 demoState1).2

/-- A concrete update request body: renames the user and attempts to
overwrite the protected `uid` field. -/
def demoUpdates : Doc := [("name", .str "Bob"), ("uid", .str "evil")]

/-! ## Basic laws of the embedded store operations -/

theorem getField_setField_self (d : Doc) (k : String) (v : Value) :
    getField (setField d k v) k = some v := by
  induction d with
  | nil => simp [setField, getField]
  | cons p rest ih =>
      obtain ⟨k0, v0⟩ := p
      by_cases h : k0 = k
      · simp [setField, getField, h]
      · simp [setField, getField, h, ih]

theorem getField_setField_ne (d : Doc) (k k' : String) (v : Value) (h : k' ≠ k) :
    getField (setField d k v) k' = getField d k' := by
  induction d with
  | nil => simp [setField, getField, Ne.symm h]
  | cons p rest ih =>
      obtain ⟨k0, v0⟩ := p
      by_cases h0 : k0 = k
      · subst h0
        simp [setField, getField, Ne.symm h]
      · by_cases h1 : k0 = k'
        · simp [setField, getField, h0, h1, h]
        · simp [setField, getField, h0, h1, ih]

theorem getField_removeField_self (d : Doc) (k : String) :
    getField (removeField d k) k = none := by
  induction d with
  | nil => rfl
  | cons p rest ih =>
      obtain ⟨k0, v0⟩ := p
      by_cases h : k0 = k
      · simp [removeField, h, ih]
      · simp [removeField, getField, h, ih]

theorem getField_removeField_ne (d : Doc) (k k' : String) (h : k' ≠ k) :
    getField (removeField d k) k' = getField d k' := by
  induction d with
  | nil => rfl
  | cons p rest ih =>
      obtain ⟨k0, v0⟩ := p
      by_cases h0 : k0 = k
      · subst h0
        simp [removeField, getField, Ne.symm h, ih]
      · by_cases h1 : k0 = k'
        · simp [removeField, getField, h0, h1, h]
        · simp [removeField, getField, h0, h1, ih]

theorem getField_eq_none_iff (d : Doc) (k : String) :
    getField d k = none ↔ k ∉ keys d := by
  induction d with
  | nil => simp [getField, keys]
  | cons p rest ih =>
      obtain ⟨k0, v0⟩ := p
      by_cases h : k0 = k
      · simp [getField, keys, h]
      · simp [getField, keys, h, ih, Ne.symm h]

theorem lookupDoc_setDoc_self (c : Collection) (id : String) (d : Doc) :
    lookupDoc (setDoc c id d) id = some d := by
  induction c with
  | nil => simp [setDoc, lookupDoc]
  | cons p rest ih =>
      obtain ⟨i, e⟩ := p
      by_cases h : i = id
      · simp [setDoc, lookupDoc, h]
      · simp [setDoc, lookupDoc, h, ih]

theorem lookupDoc_modifyDoc_self (c : Collection) (id : String) (f : Doc → Doc) :
    lookupDoc (modifyDoc c id f) id = (lookupDoc c id).map f := by
  induction c with
  | nil => rfl
  | cons p rest ih =>
      obtain ⟨i, e⟩ := p
      by_cases h : i = id
      · simp [modifyDoc, lookupDoc, h]
      · simp [modifyDoc, lookupDoc, h, ih]

theorem getField_incrementField_self (d : Doc) (k : String) (n : Nat)
    (h : getField d k = some (.num n)) :
    getField (incrementField d k) k = some (.num (n + 1)) := by
  unfold incrementField
  rw [getField_setField_self, h]

theorem getField_incrementField_ne (d : Doc) (k k' : String) (h : k' ≠ k) :
    getField (incrementField d k) k' = getField d k' :=
  getField_setField_ne _ _ _ _ h

theorem getField_arrayUnionField_self (d : Doc) (k : String) (l : List Prim) (x : Prim)
    (h : getField d k = some (.arr l)) (hx : x ∉ l) :
    getField (arrayUnionField d k x) k = some (.arr (l ++ [x])) := by
  unfold arrayUnionField
  rw [getField_setField_self, h]
  simp [hx]

theorem getField_arrayUnionField_ne (d : Doc) (k k' : String) (x : Prim) (h : k' ≠ k) :
    getField (arrayUnionField d k x) k' = getField d k' :=
  getField_setField_ne _ _ _ _ h

theorem keys_nil : keys [] = [] := rfl

theorem keys_cons (k0 : String) (v0 : Value) (rest : Doc) :
    keys ((k0, v0) :: rest) = k0 :: keys rest := rfl

theorem mem_keys_setField (d : Doc) (k a : String) (v : Value)
    (h : a ∈ keys (setField d k v)) : a ∈ keys d ∨ a = k := by
  induction d with
  | nil =>
      simp only [setField, keys_cons, keys_nil, List.mem_singleton] at h
      exact Or.inr h
  | cons p rest ih =>
      obtain ⟨k0, v0⟩ := p
      by_cases h0 : k0 = k
      · subst h0
        rw [show setField ((k0, v0) :: rest) k0 v = (k0, v) :: rest from by
              simp [setField]] at h
        rw [keys_cons, List.mem_cons] at h
        rw [keys_cons, List.mem_cons]
        rcases h with h | h
        · exact Or.inr h
        · exact Or.inl (Or.inr h)
      · rw [show setField ((k0, v0) :: rest) k v = (k0, v0) :: setField rest k v from by
              simp [setField, h0]] at h
        rw [keys_cons, List.mem_cons] at h
        rw [keys_cons, List.mem_cons]
        rcases h with h | h
        · exact Or.inl (Or.inl h)
        · rcases ih h with h | h
          · exact Or.inl (Or.inr h)
          · exact Or.inr h

theorem nodup_keys_setField (d : Doc) (k : String) (v : Value)
    (h : (keys d).Nodup) : (keys (setField d k v)).Nodup := by
  induction d with
  | nil => simp [setField, keys_cons, keys_nil]
  | cons p rest ih =>
      obtain ⟨k0, v0⟩ := p
      rw [keys_cons, List.nodup_cons] at h
      by_cases h0 : k0 = k
      · subst h0
        rw [show setField ((k0, v0) :: rest) k0 v = (k0, v) :: rest from by
              simp [setField]]
        rw [keys_cons, List.nodup_cons]
        exact h
      · rw [show setField ((k0, v0) :: rest) k v = (k0, v0) :: setField rest k v from by
              simp [setField, h0]]
        rw [keys_cons, List.nodup_cons]
        refine ⟨?_, ih h.2⟩
        intro hm
        rcases mem_keys_setField rest k k0 v hm with hmem | heq
        · exact h.1 hmem
        · exact h0 heq

theorem mem_keys_removeField (d : Doc) (k a : String)
    (h : a ∈ keys (removeField d k)) : a ∈ keys d := by
  induction d with
  | nil => simp [removeField, keys_nil] at h
  | cons p rest ih =>
      obtain ⟨k0, v0⟩ := p
      rw [keys_cons]
      by_cases h0 : k0 = k
      · rw [removeField, if_pos h0] at h
        exact List.mem_cons_of_mem _ (ih h)
      · rw [removeField, if_neg h0, keys_cons, List.mem_cons] at h
        rcases h with h | h
        · simp [h]
        · exact List.mem_cons_of_mem _ (ih h)

theorem nodup_keys_removeField (d : Doc) (k : String)
    (h : (keys d).Nodup) : (keys (removeField d k)).Nodup := by
  induction d with
  | nil => simp [removeField, keys_nil]
  | cons p rest ih =>
      obtain ⟨k0, v0⟩ := p
      rw [keys_cons, List.nodup_cons] at h
      by_cases h0 : k0 = k
      · rw [removeField, if_pos h0]
        exact ih h.2
      · rw [removeField, if_neg h0, keys_cons, List.nodup_cons]
        exact ⟨fun hm => h.1 (mem_keys_removeField rest k k0 hm), ih h.2⟩

theorem applyUpdates_cons (d : Doc) (p : String × Value) (u : Doc) :
    applyUpdates d (p :: u) = applyUpdates (setField d p.1 p.2) u := rfl

theorem getField_applyUpdates_of_none (u : Doc) (k : String) :
    ∀ d : Doc, getField u k = none → getField (applyUpdates d u) k = getField d k := by
  induction u with
  | nil => intro d _; rfl
  | cons p rest ih =>
      intro d h
      obtain ⟨k0, v0⟩ := p
      rw [applyUpdates_cons]
      by_cases h0 : k0 = k
      · simp [getField, h0] at h
      · simp only [getField, if_neg h0] at h
        rw [ih _ h, getField_setField_ne _ _ _ _ (fun hh => h0 hh.symm)]

theorem getField_applyUpdates_of_some (u : Doc) (k : String) (v : Value) :
    ∀ d : Doc, (keys u).Nodup → getField u k = some v →
      getField (applyUpdates d u) k = some v := by
  induction u with
  | nil => intro d _ h; simp [getField] at h
  | cons p rest ih =>
      intro d hnd h
      obtain ⟨k0, v0⟩ := p
      rw [applyUpdates_cons]
      simp only [keys, List.map_cons, List.nodup_cons] at hnd
      by_cases h0 : k0 = k
      · subst h0
        have hv : v0 = v := by simpa [getField] using h
        subst hv
        have hrest : getField rest k0 = none := (getField_eq_none_iff rest k0).mpr hnd.1
        rw [getField_applyUpdates_of_none _ _ _ hrest, getField_setField_self]
      · simp only [getField, if_neg h0] at h
        exact ih _ hnd.2 h

theorem userCountInv_spec (d : Doc) (h : userCountInv d = true) :
    ∃ n l, getField d "totalProjects" = some (.num n) ∧
      getField d "projects" = some (.arr l) ∧ n = l.length := by
  unfold userCountInv at h
  split at h
  · next n l hn hl => exact ⟨n, l, hn, hl, of_decide_eq_true h⟩
  · simp at h

/-! ## Claim C1 -/

/-- C1 as stated is false: when a second project creation happens at the same
clock value (`Date.now()` collision), the generated project id equals the one
already stored, so `arrayUnion` appends nothing even though the request
succeeds for an existing user — zero new ids are appended, not exactly one,
while the counter still grows. Shown at the concrete state `demoState1`. -/
theorem C1_counterexample :
    lookupDoc demoState1.users "u1" = some demoUserDoc1 ∧
    (createProject "u1" (some "P2") (some "web") none 5 demoState1).1.success = true ∧
    (lookupDoc demoState2.users "u1").map (fun d => jsGet d "projects")
      = some (.arr [.str "project_5"]) ∧
    (lookupDoc demoState1.users "u1").map (fun d => jsGet d "projects")
      = some (.arr [.str "project_5"]) ∧
    (lookupDoc demoState2.users "u1").map (fun d => jsGet d "totalProjects")
      = some (.num 2) := by
  decide

/-- C1 (amended): for a create-project request for an existing user whose
generated id `project_<now>` is not already in the user record, the counter is
incremented by exactly 1, exactly one new id is appended to the projects
list, and the created record's owning-user id equals the request's userId. -/
theorem C1_amended_create_increments_and_appends
    (userId : String) (name type description : Option String) (now : Nat)
    (s : ServerState) (d : Doc) (n : Nat) (l : List Prim)
    (hu : lookupDoc s.users userId = some d)
    (hn : getField d "totalProjects" = some (.num n))
    (hl : getField d "projects" = some (.arr l))
    (hfresh : Prim.str ("project_" ++ toString now) ∉ l) :
    ∃ d', lookupDoc (createProject userId name type description now s).2.users userId
        = some d' ∧
      getField d' "totalProjects" = some (.num (n + 1)) ∧
      getField d' "projects"
        = some (.arr (l ++ [.str ("project_" ++ toString now)])) ∧
      (createProject userId name type description now s).1.project
        = some (projectDoc userId name type description now) ∧
      getField (projectDoc userId name type description now) "userId"
        = some (.str userId) ∧
      (createProject userId name type description now s).1.success = true := by
  refine ⟨arrayUnionField (incrementField d "totalProjects") "projects"
      (.str ("project_" ++ toString now)), ?_, ?_, ?_, ?_, ?_, ?_⟩
  · simp [createProject, hu, lookupDoc_modifyDoc_self]
  · rw [getField_arrayUnionField_ne _ _ _ _ (by decide)]
    exact getField_incrementField_self _ _ _ hn
  · refine getField_arrayUnionField_self _ _ _ _ ?_ hfresh
    rw [getField_incrementField_ne _ _ _ (by decide)]
    exact hl
  · simp [createProject, hu]
  · simp [projectDoc, getField]
  · simp [createProject, hu]

/-- C1 witness: the amended theorem applied at a concrete fresh creation. -/
theorem C1_witness :
    ∃ d', lookupDoc (createProject "u1" (some "P") (some "t") none 7 demoState1).2.users "u1"
        = some d' ∧
      getField d' "totalProjects" = some (.num (1 + 1)) ∧
      getField d' "projects"
        = some (.arr ([.str "project_5"] ++ [.str ("project_" ++ toString 7)])) ∧
      (createProject "u1" (some "P") (some "t") none 7 demoState1).1.project
        = some (projectDoc "u1" (some "P") (some "t") none 7) ∧
      getField (projectDoc "u1" (some "P") (some "t") none 7) "userId"
        = some (.str "u1") ∧
      (createProject "u1" (some "P") (some "t") none 7 demoState1).1.success = true :=
  C1_amended_create_increments_and_appends "u1" (some "P") (some "t") none 7 demoState1
    demoUserDoc1 1 [.str "project_5"] (by decide) (by decide) (by decide) (by decide)

/-! ## Claim C2 -/

/-- C2 as stated is false: after registration and two successful project
creations that happen at the same clock value, the stored counter is 2 while
the project-id list has one entry, so the invariant is violated by successful
operations alone. -/
theorem C2_counterexample :
    (createProject "u1" (some "P1") (some "web") none 5 demoState).1.success = true ∧
    (createProject "u1" (some "P2") (some "web") none 5 demoState1).1.success = true ∧
    (lookupDoc demoState2.users "u1").map userCountInv = some false := by
  decide

/-- C2 (amended): registration establishes the counter invariant, and a
successful project creation preserves it provided the generated project id is
not already in the user record (as when creation clock values are distinct). -/
theorem C2_amended_counter_invariant :
    (∀ (tokenFor : String → Except String String) (now : Nat)
        (email password name : Option String) (s : ServerState) (uid : String) (d : Doc),
        jsFalsy email = false → jsFalsy password = false → jsFalsy name = false →
        lookupDoc (register true (.ok uid) tokenFor now email password name s).2.users uid
          = some d →
        userCountInv d = true) ∧
    (∀ (userId : String) (name type description : Option String) (now : Nat)
        (s : ServerState) (d d' : Doc),
        lookupDoc s.users userId = some d →
        userCountInv d = true →
        (∀ l, getField d "projects" = some (.arr l) →
          Prim.str ("project_" ++ toString now) ∉ l) →
        lookupDoc (createProject userId name type description now s).2.users userId
          = some d' →
        userCountInv d' = true) := by
  constructor
  · intro tokenFor now email password name s uid d he hp hn hd
    rcases htok : tokenFor uid with e | tok <;>
      · simp [register, he, hp, hn, htok, lookupDoc_setDoc_self] at hd
        subst hd
        rfl
  · intro userId name type description now s d d' hd hinv hfresh hd'
    obtain ⟨n, l, hn, hl, hlen⟩ := userCountInv_spec d hinv
    rw [show (createProject userId name type description now s).2.users
          = modifyDoc s.users userId (fun e =>
              arrayUnionField (incrementField e "totalProjects") "projects"
                (.str ("project_" ++ toString now))) from by
          simp [createProject, hd]] at hd'
    rw [lookupDoc_modifyDoc_self, hd] at hd'
    obtain rfl := (Option.some.injEq _ _).mp hd'
    unfold userCountInv
    rw [getField_arrayUnionField_ne _ _ _ _ (by decide),
        getField_incrementField_self _ _ _ hn,
        getField_arrayUnionField_self _ _ _ _
          (by rw [getField_incrementField_ne _ _ _ (by decide)]; exact hl)
          (hfresh l hl)]
    simp [hlen]

/-- C2 witness: establishment at the demo registration, preservation at the
first (fresh) demo project creation. -/
theorem C2_witness :
    userCountInv demoUserDoc = true ∧ userCountInv demoUserDoc1 = true := by
  constructor
  · exact C2_amended_counter_invariant.1 (fun u => .ok ("tok_" ++ u)) 0 (some "a@b.c")
      (some "pw") (some "Al") demoState0 "u1" demoUserDoc (by decide) (by decide)
      (by decide) (by decide)
  · refine C2_amended_counter_invariant.2 "u1" (some "P1") (some "web") none 5 demoState
      demoUserDoc demoUserDoc1 (by decide) (by decide) ?_ (by decide)
    intro l hl
    have : Value.arr [] = Value.arr l := by
      have h0 : getField demoUserDoc "projects" = some (.arr []) := by decide
      exact Option.some.inj (h0 ▸ hl)
    obtain rfl := (by simpa using this : ([] : List Prim) = l)
    simp

/-! ## Claim C8 -/

/-- C8: a create-project request for a userId with no user record returns the
404 not-found response and leaves the whole store state, in particular the
projects collection, unchanged. -/
theorem C8_create_project_user_not_found
    (userId : String) (name type description : Option String) (now : Nat)
    (s : ServerState) (h : lookupDoc s.users userId = none) :
    createProject userId name type description now s
      = ({ status := 404, success := false, error := some "User not found" }, s) := by
  simp [createProject, h]

/-- C8 witness: concrete non-existent user. -/
theorem C8_witness :
    createProject "ghost" (some "P") (some "t") none 3 demoState
      = ({ status := 404, success := false, error := some "User not found" }, demoState) :=
  C8_create_project_user_not_found "ghost" (some "P") (some "t") none 3 demoState (by decide)

/-! ## Claim C10 -/

/-- C10: for an existing user, project creation performs no validation of
`name` and `type` — the stored record carries exactly the supplied values,
`undefined` when absent — while only `description` is defaulted (to the empty
string); the operation succeeds for every such request. -/
theorem C10_create_project_no_validation
    (userId : String) (name type description : Option String) (now : Nat)
    (s : ServerState) (d : Doc) (h : lookupDoc s.users userId = some d) :
    (createProject userId name type description now s).1.success = true ∧
    (createProject userId name type description now s).1.status = 200 ∧
    lookupDoc (createProject userId name type description now s).2.projects
        ("project_" ++ toString now)
      = some (projectDoc userId name type description now) ∧
    getField (projectDoc userId name type description now) "name" = some (jsVal name) ∧
    getField (projectDoc userId name type description now) "type" = some (jsVal type) ∧
    getField (projectDoc userId name type description now) "description"
      = some (.str (jsOr description "")) := by
  refine ⟨by simp [createProject, h], by simp [createProject, h], ?_, ?_, ?_, ?_⟩
  · simp [createProject, h, lookupDoc_setDoc_self]
  · simp [projectDoc, getField]
  · simp [projectDoc, getField]
  · simp [projectDoc, getField]

/-- C10 witness: a request with `name`, `type` and `description` all absent
still succeeds and stores `undefined` name and type. -/
theorem C10_witness :
    (createProject "u1" none none none 9 demoState).1.success = true ∧
    (createProject "u1" none none none 9 demoState).1.status = 200 ∧
    lookupDoc (createProject "u1" none none none 9 demoState).2.projects
        ("project_" ++ toString 9)
      = some (projectDoc "u1" none none none 9) ∧
    getField (projectDoc "u1" none none none 9) "name" = some (jsVal none) ∧
    getField (projectDoc "u1" none none none 9) "type" = some (jsVal none) ∧
    getField (projectDoc "u1" none none none 9) "description"
      = some (.str (jsOr none "")) :=
  C10_create_project_no_validation "u1" none none none 9 demoState demoUserDoc (by decide)

/-! ## Claim C5 -/

/-- C5: a register request with any of email, password or name absent returns
the 400 missing-fields response, independently of the identity-service
parameters, and leaves the store untouched. -/
theorem C5_register_missing_fields
    (fbInit : Bool) (authCreate : Except String String)
    (tokenFor : String → Except String String) (now : Nat)
    (email password name : Option String) (s : ServerState)
    (h : email = none ∨ password = none ∨ name = none) :
    register fbInit authCreate tokenFor now email password name s
      = ({ status := 400, success := false,
           error := some "Missing required fields: email, password, name" }, s) := by
  rcases h with h | h | h <;> subst h <;> simp [register, jsFalsy]

/-- C5 witness: registration with the password absent. -/
theorem C5_witness :
    register true (.ok "u9") (fun u => .ok ("tok_" ++ u)) 4
        (some "x@y.z") none (some "Xe") demoState0
      = ({ status := 400, success := false,
           error := some "Missing required fields: email, password, name" }, demoState0) :=
  C5_register_missing_fields true (.ok "u9") (fun u => .ok ("tok_" ++ u)) 4
    (some "x@y.z") none (some "Xe") demoState0 (Or.inr (Or.inl rfl))

/-! ## Claim C6 -/

/-- C6: with all required fields present (truthy) and the store-availability
flag false, register and login return the 200 mock response with the
synthetic id `user_<now>` and placeholder token `mock_token_<now>`, and the
store state is returned unchanged; no identity-service result is consulted. -/
theorem C6_mock_mode_register_login
    (authCreate : Except String String) (tokenFor : String → Except String String)
    (now : Nat) (email password name : Option String) (s : ServerState)
    (he : jsFalsy email = false) (hp : jsFalsy password = false)
    (hn : jsFalsy name = false) :
    register false authCreate tokenFor now email password name s
      = ({ status := 200, success := true,
           user := some { uid := "user_" ++ toString now, email := email.getD "",
                          name := name.getD "", createdAt := isoString now },
           token := some ("mock_token_" ++ toString now),
           message := some "Registration successful (Firebase disabled - mock mode)!" },
         s) ∧
    login false tokenFor now email password s
      = ({ status := 200, success := true,
           user := some { uid := "user_" ++ toString now, email := email.getD "",
                          name := ((email.getD "").splitOn "@").headD "",
                          createdAt := isoString now },
           token := some ("mock_token_" ++ toString now),
           message := some "Login successful (Firebase disabled - mock mode)!" }, s) := by
  constructor
  · simp [register, he, hp, hn]
  · simp [login, he, hp]

/-- C6 witness: mock-mode register and login at concrete inputs. -/
theorem C6_witness :
    register false (.ok "u1") (fun u => .ok ("tok_" ++ u)) 3
        (some "a@b.c") (some "pw") (some "Al") demoState0
      = ({ status := 200, success := true,
           user := some { uid := "user_" ++ toString 3, email := (some "a@b.c").getD "",
                          name := (some "Al").getD "", createdAt := isoString 3 },
           token := some ("mock_token_" ++ toString 3),
           message := some "Registration successful (Firebase disabled - mock mode)!" },
         demoState0) ∧
    login false (fun u => .ok ("tok_" ++ u)) 3 (some "a@b.c") (some "pw") demoState0
      = ({ status := 200, success := true,
           user := some { uid := "user_" ++ toString 3,
                          email := ((some "a@b.c") : Option String).getD "",
                          name := ((((some "a@b.c") : Option String).getD "").splitOn "@").headD "",
                          createdAt := isoString 3 },
           token := some ("mock_token_" ++ toString 3),
           message := some "Login successful (Firebase disabled - mock mode)!" },
         demoState0) :=
  C6_mock_mode_register_login (.ok "u1") (fun u => .ok ("tok_" ++ u)) 3
    (some "a@b.c") (some "pw") (some "Al") demoState0 (by decide) (by decide) (by decide)

/-! ## Claim C7 -/

/-- C7: with email and password present and the store available, login
synthesizes the id `user_<now>` and asks the Identity Service for a token for
that id: the outcome is identical for any two supplied passwords (no password
verification happens), the store is never mutated, a token-service success
yields a 200 response carrying the token for the synthetic id, and a
token-service fault yields the 401 invalid-credentials response. -/
theorem C7_login_no_password_check
    (tokenFor : String → Except String String) (now : Nat)
    (email p1 p2 : Option String) (s : ServerState)
    (he : jsFalsy email = false) (h1 : jsFalsy p1 = false) (h2 : jsFalsy p2 = false) :
    login true tokenFor now email p1 s = login true tokenFor now email p2 s ∧
    (login true tokenFor now email p1 s).2 = s ∧
    (∀ tok, tokenFor ("user_" ++ toString now) = .ok tok →
      (login true tokenFor now email p1 s).1.status = 200 ∧
      (login true tokenFor now email p1 s).1.token = some tok ∧
      ((login true tokenFor now email p1 s).1.user.map PublicUser.uid)
        = some ("user_" ++ toString now)) ∧
    (∀ e, tokenFor ("user_" ++ toString now) = .error e →
      (login true tokenFor now email p1 s).1.status = 401 ∧
      (login true tokenFor now email p1 s).1.success = false ∧
      (login true tokenFor now email p1 s).1.error = some "Invalid credentials") := by
  refine ⟨?_, ?_, ?_, ?_⟩
  · rcases htok : tokenFor ("user_" ++ toString now) with e | tok <;>
      simp [login, he, h1, h2, htok]
  · rcases htok : tokenFor ("user_" ++ toString now) with e | tok <;>
      simp [login, he, h1, htok]
  · intro tok htok
    simp [login, he, h1, htok]
  · intro e htok
    simp [login, he, h1, htok]

/-- C7 witness: concrete login requests with two different passwords and a
token service that succeeds for the synthetic id, plus one with a failing
token service. -/
theorem C7_witness :
    login true (fun u => .ok ("tok_" ++ u)) 3 (some "a@b.c") (some "pw1") demoState0
      = login true (fun u => .ok ("tok_" ++ u)) 3 (some "a@b.c") (some "pw2") demoState0 ∧
    (login true (fun u => .ok ("tok_" ++ u)) 3 (some "a@b.c") (some "pw1") demoState0).2
      = demoState0 ∧
    (∀ tok, (fun u => (.ok ("tok_" ++ u) : Except String String)) ("user_" ++ toString 3)
        = .ok tok →
      (login true (fun u => .ok ("tok_" ++ u)) 3 (some "a@b.c") (some "pw1")
          demoState0).1.status = 200 ∧
      (login true (fun u => .ok ("tok_" ++ u)) 3 (some "a@b.c") (some "pw1")
          demoState0).1.token = some tok ∧
      ((login true (fun u => .ok ("tok_" ++ u)) 3 (some "a@b.c") (some "pw1")
          demoState0).1.user.map PublicUser.uid) = some ("user_" ++ toString 3)) ∧
    (∀ e, (fun u => (.ok ("tok_" ++ u) : Except String String)) ("user_" ++ toString 3)
        = .error e →
      (login true (fun u => .ok ("tok_" ++ u)) 3 (some "a@b.c") (some "pw1")
          demoState0).1.status = 401 ∧
      (login true (fun u => .ok ("tok_" ++ u)) 3 (some "a@b.c") (some "pw1")
          demoState0).1.success = false ∧
      (login true (fun u => .ok ("tok_" ++ u)) 3 (some "a@b.c") (some "pw1")
          demoState0).1.error = some "Invalid credentials") :=
  C7_login_no_password_check (fun u => .ok ("tok_" ++ u)) 3 (some "a@b.c")
    (some "pw1") (some "pw2") demoState0 (by decide) (by decide) (by decide)

/-! ## Claim C9 -/

/-- C9: fetching an existing user returns exactly the eight public fields
`uid, email, name, createdAt, lastLogin, role, totalProjects, settings`, each
read off the stored record; the stored projects list and every other stored
field are absent from the response. -/
theorem C9_get_user_public_subset
    (userId : String) (s : ServerState) (d : Doc)
    (h : lookupDoc s.users userId = some d) :
    (getUser userId s).status = 200 ∧
    (getUser userId s).success = true ∧
    (getUser userId s).user = some (safeUser d) ∧
    keys (safeUser d)
      = ["uid", "email", "name", "createdAt", "lastLogin", "role",
         "totalProjects", "settings"] ∧
    (∀ k, k ∈ keys (safeUser d) → getField (safeUser d) k = some (jsGet d k)) ∧
    getField (safeUser d) "projects" = none ∧
    (∀ k, k ∉ ["uid", "email", "name", "createdAt", "lastLogin", "role",
               "totalProjects", "settings"] → getField (safeUser d) k = none) := by
  refine ⟨by simp [getUser, h], by simp [getUser, h], by simp [getUser, h], rfl, ?_, ?_, ?_⟩
  · intro k hk
    rw [show keys (safeUser d)
          = ["uid", "email", "name", "createdAt", "lastLogin", "role",
             "totalProjects", "settings"] from rfl] at hk
    simp only [List.mem_cons, List.not_mem_nil, or_false] at hk
    rcases hk with rfl | rfl | rfl | rfl | rfl | rfl | rfl | rfl <;> rfl
  · rfl
  · intro k hk
    refine (getField_eq_none_iff (safeUser d) k).mpr ?_
    rw [show keys (safeUser d)
          = ["uid", "email", "name", "createdAt", "lastLogin", "role",
             "totalProjects", "settings"] from rfl]
    exact hk

/-- C9 witness: the get-user response for the registered demo user. -/
theorem C9_witness :
    (getUser "u1" demoState).status = 200 ∧
    (getUser "u1" demoState).success = true ∧
    (getUser "u1" demoState).user = some (safeUser demoUserDoc) ∧
    keys (safeUser demoUserDoc)
      = ["uid", "email", "name", "createdAt", "lastLogin", "role",
         "totalProjects", "settings"] ∧
    (∀ k, k ∈ keys (safeUser demoUserDoc) →
      getField (safeUser demoUserDoc) k = some (jsGet demoUserDoc k)) ∧
    getField (safeUser demoUserDoc) "projects" = none ∧
    (∀ k, k ∉ ["uid", "email", "name", "createdAt", "lastLogin", "role",
               "totalProjects", "settings"] → getField (safeUser demoUserDoc) k = none) :=
  C9_get_user_public_subset "u1" demoState demoUserDoc (by decide)

/-! ## Claim C4 -/

/-- C4: updating an existing user strips `uid`, `email` and `createdAt` from
the request body unconditionally, stamps `updatedAt` with the clock value,
merges the remaining fields into the stored record (fields not named in the
request are unchanged), and returns the full re-read record, which is exactly
the stored one. -/
theorem C4_update_user_strips_and_merges
    (userId : String) (updates : Doc) (now : Nat) (s : ServerState) (d : Doc)
    (hd : lookupDoc s.users userId = some d)
    (hnd : (keys updates).Nodup) :
    ∃ d', (updateUser userId updates now s).1
        = { status := 200, success := true, user := some d',
            message := some "Profile updated successfully" } ∧
      lookupDoc (updateUser userId updates now s).2.users userId = some d' ∧
      getField d' "uid" = getField d "uid" ∧
      getField d' "email" = getField d "email" ∧
      getField d' "createdAt" = getField d "createdAt" ∧
      getField d' "updatedAt" = some (.str (isoString now)) ∧
      (∀ k, getField updates k = none → k ≠ "updatedAt" →
        getField d' k = getField d k) ∧
      (∀ k v, getField updates k = some v →
        k ∉ ["uid", "email", "createdAt", "updatedAt"] →
        getField d' k = some v) := by
  have hndu : (keys (setField (removeField (removeField (removeField updates "uid")
      "email") "createdAt") "updatedAt" (.str (isoString now)))).Nodup :=
    nodup_keys_setField _ _ _ (nodup_keys_removeField _ _ (nodup_keys_removeField _ _
      (nodup_keys_removeField _ _ hnd)))
  refine ⟨applyUpdates d (setField (removeField (removeField (removeField updates "uid")
      "email") "createdAt") "updatedAt" (.str (isoString now))),
    ?_, ?_, ?_, ?_, ?_, ?_, ?_, ?_⟩
  · simp [updateUser, hd]
  · simp [updateUser, hd, lookupDoc_setDoc_self]
  · refine getField_applyUpdates_of_none _ _ _ ?_
    rw [getField_setField_ne _ _ _ _ (by decide),
        getField_removeField_ne _ _ _ (by decide),
        getField_removeField_ne _ _ _ (by decide),
        getField_removeField_self]
  · refine getField_applyUpdates_of_none _ _ _ ?_
    rw [getField_setField_ne _ _ _ _ (by decide),
        getField_removeField_ne _ _ _ (by decide),
        getField_removeField_self]
  · refine getField_applyUpdates_of_none _ _ _ ?_
    rw [getField_setField_ne _ _ _ _ (by decide),
        getField_removeField_self]
  · exact getField_applyUpdates_of_some _ _ _ _ hndu (getField_setField_self _ _ _)
  · intro k hk hneq
    refine getField_applyUpdates_of_none _ _ _ ?_
    rw [getField_setField_ne _ _ _ _ hneq]
    by_cases h1 : k = "createdAt"
    · subst h1; exact getField_removeField_self _ _
    · rw [getField_removeField_ne _ _ _ h1]
      by_cases h2 : k = "email"
      · subst h2; exact getField_removeField_self _ _
      · rw [getField_removeField_ne _ _ _ h2]
        by_cases h3 : k = "uid"
        · subst h3; exact getField_removeField_self _ _
        · rw [getField_removeField_ne _ _ _ h3]; exact hk
  · intro k v hk hprot
    simp only [List.mem_cons, List.not_mem_nil, or_false, not_or] at hprot
    obtain ⟨hk1, hk2, hk3, hk4⟩ := hprot
    refine getField_applyUpdates_of_some _ _ _ _ hndu ?_
    rw [getField_setField_ne _ _ _ _ hk4,
        getField_removeField_ne _ _ _ hk3,
        getField_removeField_ne _ _ _ hk2,
        getField_removeField_ne _ _ _ hk1]
    exact hk

/-- C4 witness: a concrete update that renames the user and attempts to
overwrite the protected `uid` field. -/
theorem C4_witness :
    ∃ d', (updateUser "u1" demoUpdates 11 demoState).1
        = { status := 200, success := true, user := some d',
            message := some "Profile updated successfully" } ∧
      lookupDoc (updateUser "u1" demoUpdates 11 demoState).2.users "u1" = some d' ∧
      getField d' "uid" = getField demoUserDoc "uid" ∧
      getField d' "email" = getField demoUserDoc "email" ∧
      getField d' "createdAt" = getField demoUserDoc "createdAt" ∧
      getField d' "updatedAt" = some (.str (isoString 11)) ∧
      (∀ k, getField demoUpdates k = none → k ≠ "updatedAt" →
        getField d' k = getField demoUserDoc k) ∧
      (∀ k v, getField demoUpdates k = some v →
        k ∉ ["uid", "email", "createdAt", "updatedAt"] →
        getField d' k = some v) :=
  C4_update_user_strips_and_merges "u1" demoUpdates 11 demoState demoUserDoc
    (by decide) (by decide)

/-! ## Lexicographic order facts for the ordered query -/

theorem lexLe_total (a : List Char) : ∀ b, lexLe a b = true ∨ lexLe b a = true := by
  induction a with
  | nil => intro b; left; rfl
  | cons x xs ih =>
      intro b
      cases b with
      | nil => right; rfl
      | cons y ys =>
          by_cases hxy : x.toNat < y.toNat
          · left; simp [lexLe, hxy]
          · by_cases hyx : y.toNat < x.toNat
            · right; simp [lexLe, hyx]
            · rcases ih ys with h | h
              · left; simp [lexLe, hxy, hyx, h]
              · right; simp [lexLe, hxy, hyx, h]

theorem lexLe_trans (a : List Char) : ∀ b c, lexLe a b = true → lexLe b c = true →
    lexLe a c = true := by
  induction a with
  | nil => intro b c _ _; rfl
  | cons x xs ih =>
      intro b c h1 h2
      cases b with
      | nil => simp [lexLe] at h1
      | cons y ys =>
          cases c with
          | nil => simp [lexLe] at h2
          | cons z zs =>
              simp only [lexLe] at h1 h2 ⊢
              by_cases hxy : x.toNat < y.toNat
              · by_cases hyz : y.toNat < z.toNat
                · simp [show x.toNat < z.toNat by omega]
                · by_cases hzy : z.toNat < y.toNat
                  · simp [hyz, hzy] at h2
                  · simp [show x.toNat < z.toNat by omega]
              · by_cases hyx : y.toNat < x.toNat
                · simp [hxy, hyx] at h1
                · by_cases hyz : y.toNat < z.toNat
                  · simp [show x.toNat < z.toNat by omega]
                  · by_cases hzy : z.toNat < y.toNat
                    · simp [hyz, hzy] at h2
                    · have h3 : ¬ x.toNat < z.toNat := by omega
                      have h4 : ¬ z.toNat < x.toNat := by omega
                      simp only [h3, if_neg h3, h4, if_neg h4]
                      exact ih ys zs (by simpa [hxy, hyx] using h1)
                        (by simpa [hyz, hzy] using h2)

theorem strLe_total (a b : String) : strLe a b = true ∨ strLe b a = true :=
  lexLe_total a.data b.data

theorem strLe_trans (a b c : String) (h1 : strLe a b = true) (h2 : strLe b c = true) :
    strLe a c = true :=
  lexLe_trans a.data b.data c.data h1 h2

/-! ## Claim C3 -/

/-- C3: listing the projects of any userId in any state succeeds with a list
that is a permutation of exactly the stored project records whose `userId`
field equals the given id, is sorted by the `createdAt` timestamp descending,
has `count` equal to its length, and is computed without consulting the users
collection at all. -/
theorem C3_list_projects_filtered_sorted (userId : String) (s : ServerState) :
    (getUserProjects userId s).status = 200 ∧
    (getUserProjects userId s).success = true ∧
    (getUserProjects userId s).count = (getUserProjects userId s).projects.length ∧
    ((getUserProjects userId s).projects.all fun p => fieldEqStr p "userId" userId)
      = true ∧
    List.Sorted projAfter (getUserProjects userId s).projects ∧
    (getUserProjects userId s).projects.Perm
      ((s.projects.filter fun p => fieldEqStr p.2 "userId" userId).map Prod.snd) ∧
    (∀ us : Collection, getUserProjects userId { s with users := us }
        = getUserProjects userId s) := by
  haveI : IsTotal Doc projAfter := ⟨fun a b => strLe_total _ _⟩
  haveI : IsTrans Doc projAfter := ⟨fun a b c h1 h2 => strLe_trans _ _ _ h2 h1⟩
  refine ⟨rfl, rfl, rfl, ?_, ?_, ?_, fun us => rfl⟩
  · rw [List.all_eq_true]
    intro p hp
    have hp' : p ∈ (s.projects.filter fun q => fieldEqStr q.2 "userId" userId).map
        Prod.snd :=
      (List.perm_insertionSort projAfter _).mem_iff.mp hp
    obtain ⟨q, hq, rfl⟩ := List.mem_map.mp hp'
    exact (List.mem_filter.mp hq).2
  · exact List.sorted_insertionSort projAfter _
  · exact List.perm_insertionSort projAfter _

/-- C3 witness: the listing at a concrete populated state. -/
theorem C3_witness :
    (getUserProjects "u1" demoState2).status = 200 ∧
    (getUserProjects "u1" demoState2).success = true ∧
    (getUserProjects "u1" demoState2).count
      = (getUserProjects "u1" demoState2).projects.length ∧
    ((getUserProjects "u1" demoState2).projects.all fun p => fieldEqStr p "userId" "u1")
      = true ∧
    List.Sorted projAfter (getUserProjects "u1" demoState2).projects ∧
    (getUserProjects "u1" demoState2).projects.Perm
      ((demoState2.projects.filter fun p => fieldEqStr p.2 "userId" "u1").map Prod.snd) ∧
    (∀ us : Collection, getUserProjects "u1" { demoState2 with users := us }
        = getUserProjects "u1" demoState2) :=
  C3_list_projects_filtered_sorted "u1" demoState2

end FramerBackend
